import Mathlib

/-!
# Verification of the stock-analysis technical/scoring engine

Shallow embedding, over exact rationals, of the numeric core of the
repository:

* `modules/technical.py` — ATR, SuperTrend recurrence, trend label,
  RSI / MACD / Bollinger / support-resistance aggregation
  (`calculate_technical_indicators`);
* `main.py` — the composite scoring stage inside `analyze_stock`
  (technical / fundamental / sentiment scores, overall score, signal,
  verdict, rationale construction).

Modelling conventions, used consistently below:

* Python/NumPy `float` values are modelled as `ℚ`.  Binary floating point
  introduces relative errors around `2⁻⁵²`; every concrete counterexample
  below is chosen so that the compared quantities differ by at least `0.1`,
  far beyond any float rounding of these small expressions.
* IEEE `NaN` (produced by pandas for unfilled rolling windows and by `0/0`)
  is modelled as `Option.none`; every ordered comparison against `none`
  is `false`, exactly as every ordered comparison against `NaN` is `False`
  in Python.
* Python `int(x)` truncates toward zero; Python `round` rounds half to
  even.  Both are modelled exactly (`pyInt`, `rte`).
-/

/-- One OHLC price bar (`High`, `Low`, `Close` columns of the pandas frame).
Timestamps, opens and volumes are never read by the code under study. -/
structure Bar where
  high : ℚ
  low : ℚ
  close : ℚ
deriving Repr, DecidableEq

/-- Python `close > band` where `band` may be `NaN` (`none`): comparison with
`NaN` is `False`. -/
def cGt (c : ℚ) : Option ℚ → Bool
  | some v => decide (v < c)
  | none => false

/-- Python `close < band` where `band` may be `NaN` (`none`). -/
def cLt (c : ℚ) : Option ℚ → Bool
  | some v => decide (c < v)
  | none => false

/-- Python `a < b` on two possibly-`NaN` floats. -/
def oLt : Option ℚ → Option ℚ → Bool
  | some x, some y => decide (x < y)
  | _, _ => false

/-- Python `a > b` on two possibly-`NaN` floats. -/
def oGt : Option ℚ → Option ℚ → Bool
  | some x, some y => decide (y < x)
  | _, _ => false

/-- Bar lookup with a dummy default; every use below is guarded by an index
bound, mirroring `df.iloc[i]` on a frame of known length. -/
def barAt (bars : List Bar) (i : ℕ) : Bar := bars.getD i ⟨0, 0, 0⟩

/-- True-range tail: `tr i = max(high−low, |high−prev_close|, |low−prev_close|)`
(`calculate_atr`, technical.py lines 6–10). -/
def trAux (prevClose : ℚ) : List Bar → List ℚ
  | [] => []
  | b :: rest =>
      max (b.high - b.low) (max |b.high - prevClose| |b.low - prevClose|) :: trAux b.close rest

/-- True range of a frame.  At index 0 `Close.shift()` is `NaN`, and
`np.max(df_tr, axis=1)` dispatches to `DataFrame.max(axis=1)` which skips
`NaN`, so `tr 0 = high 0 − low 0`. -/
def trList : List Bar → List ℚ
  | [] => []
  | b :: rest => (b.high - b.low) :: trAux b.close rest

/-- Model of `series.rolling(p).mean()` read at index `i`: `NaN` (`none`) until `p`
samples are available. -/
def rollingMeanAt (p : ℕ) (xs : List ℚ) (i : ℕ) : Option ℚ :=
  if i + 1 < p ∨ xs.length ≤ i then none
  else some (((xs.drop (i + 1 - p)).take p).sum / p)

/-- Model of `calculate_atr` read at index `i` (technical.py line 11). -/
def atrAt (bars : List Bar) (period i : ℕ) : Option ℚ :=
  rollingMeanAt period (trList bars) i

/-- Model of `hl2 = (High + Low) / 2` at index `i`. -/
def hl2 (bars : List Bar) (i : ℕ) : ℚ :=
  ((barAt bars i).high + (barAt bars i).low) / 2

/-- Raw upper band `hl2 + multiplier·ATR` (technical.py line 17); `NaN`
while the ATR window is unfilled. -/
def rawUB (bars : List Bar) (period : ℕ) (mult : ℚ) (i : ℕ) : Option ℚ :=
  (atrAt bars period i).map (fun a => hl2 bars i + mult * a)

/-- Raw lower band `hl2 − multiplier·ATR` (technical.py line 18). -/
def rawLB (bars : List Bar) (period : ℕ) (mult : ℚ) (i : ℕ) : Option ℚ :=
  (atrAt bars period i).map (fun a => hl2 bars i - mult * a)

/-- State of the `calculate_supertrend` loop after processing index `i`:
`(supertrend[i], final_ub[i], final_lb[i])` (technical.py lines 20–31).
Index 0 keeps the initialisation `supertrend[0] = True` and the raw bands;
each later index reads the previous, possibly ratcheted, final bands, and
in the in-band branch overwrites its own final band with the previous one
when the ratchet condition fires.  All comparisons against `NaN` bands are
`false`, as in Python. -/
def stState (bars : List Bar) (period : ℕ) (mult : ℚ) : ℕ → Bool × Option ℚ × Option ℚ
  | 0 => (true, rawUB bars period mult 0, rawLB bars period mult 0)
  | i + 1 =>
      let s := stState bars period mult i
      let pt := s.1
      let pub := s.2.1
      let plb := s.2.2
      let c := (barAt bars (i + 1)).close
      let ub := rawUB bars period mult (i + 1)
      let lb := rawLB bars period mult (i + 1)
      if cGt c pub then (true, ub, lb)
      else if cLt c plb then (false, ub, lb)
      else
        (pt,
         (if (!pt) && oGt ub pub then pub else ub),
         (if pt && oLt lb plb then plb else lb))

/-- Model of `calculate_supertrend(df, period=10, multiplier=3)`: the loop state at the
last index, i.e. `(supertrend[-1], final_ub.iloc[-1], final_lb.iloc[-1])`
(technical.py line 33).  Only ever called on a non-empty frame. -/
def calculate_supertrend (bars : List Bar) : Bool × Option ℚ × Option ℚ :=
  stState bars 10 3 (bars.length - 1)

/-- The 12-bar frame used to analyse the SuperTrend ratchet: eleven flat bars
at price 100 (zero true range), then one huge-range bar that closes above
the previous final upper band. -/
def ratchetBars : List Bar :=
  List.replicate 11 ⟨100, 100, 100⟩ ++ [⟨300, 0, 200⟩]

theorem trAux_length (c : ℚ) (bs : List Bar) : (trAux c bs).length = bs.length := by
  induction bs generalizing c with
  | nil => rfl
  | cons b rest ih => simp [trAux, ih]

theorem trList_length (bars : List Bar) : (trList bars).length = bars.length := by
  cases bars with
  | nil => rfl
  | cons b rest => simp [trList, trAux_length]

theorem rawUB_isSome (bars : List Bar) (p : ℕ) (m : ℚ) (i : ℕ) :
    (rawUB bars p m i).isSome ↔ (p ≤ i + 1 ∧ i < bars.length) := by
  simp only [rawUB, atrAt, rollingMeanAt, trList_length, Option.isSome_map]
  split <;> rename_i h <;> simp <;> omega

theorem rawLB_isSome (bars : List Bar) (p : ℕ) (m : ℚ) (i : ℕ) :
    (rawLB bars p m i).isSome ↔ (p ≤ i + 1 ∧ i < bars.length) := by
  simp only [rawLB, atrAt, rollingMeanAt, trList_length, Option.isSome_map]
  split <;> rename_i h <;> simp <;> omega

theorem finalLB_isSome (bars : List Bar) (p : ℕ) (m : ℚ) (i : ℕ) :
    (stState bars p m i).2.2.isSome = (rawLB bars p m i).isSome := by
  cases i with
  | zero => rfl
  | succ j =>
      simp only [stState]
      split
      · rfl
      · split
        · rfl
        · dsimp only
          split
          · rename_i h
            rw [Bool.and_eq_true] at h
            have h2 := h.2
            unfold oLt at h2
            split at h2
            · rename_i x y hx hy
              rw [hy, hx]
              rfl
            · exact absurd h2 (by simp)
          · rfl

theorem finalUB_isSome (bars : List Bar) (p : ℕ) (m : ℚ) (i : ℕ) :
    (stState bars p m i).2.1.isSome = (rawUB bars p m i).isSome := by
  cases i with
  | zero => rfl
  | succ j =>
      simp only [stState]
      split
      · rfl
      · split
        · rfl
        · dsimp only
          split
          · rename_i h
            rw [Bool.and_eq_true] at h
            have h2 := h.2
            unfold oGt at h2
            split at h2
            · rename_i x y hx hy
              rw [hy, hx]
              rfl
            · exact absurd h2 (by simp)
          · rfl

/-- Simp set that fully evaluates the SuperTrend loop on concrete frames. -/
theorem ratchetBars_length : ratchetBars.length = 12 := by
  norm_num [ratchetBars]

/-- C1 (counterexample).  On `ratchetBars` the trend is "up" at every index
and no close is ever below the prior final lower band, yet the final lower
band falls from 100 (index 10) to 60 (index 11): when the close breaks above
the previous final upper band, the loop resets the final lower band to the
raw band, which the run-level ratchet sentence of the claim forbids. -/
theorem supertrend_ratchet_counterexample :
    (([0,1,2,3,4,5,6,7,8,9,10,11] : List ℕ).all
        fun i => (stState ratchetBars 10 3 i).1) = true
      ∧ (([0,1,2,3,4,5,6,7,8,9,10,11] : List ℕ).all fun i =>
          !(cLt (barAt ratchetBars i).close (stState ratchetBars 10 3 (i - 1)).2.2)) = true
      ∧ (stState ratchetBars 10 3 10).2.2 = some 100
      ∧ (stState ratchetBars 10 3 11).2.2 = some 60
      ∧ ¬((100 : ℚ) ≤ 60) := by
  refine ⟨?_, ?_, ?_, ?_, by norm_num⟩ <;>
    norm_num [stState, rawUB, rawLB, atrAt, rollingMeanAt, trList, trAux, ratchetBars, hl2, barAt,
      List.replicate, cGt, cLt, oLt, oGt]

/-- C1 (amended, proved).  The per-step recurrence of `calculate_supertrend`:
a close above the previous final upper band gives trend "up"; otherwise a
close below the previous final lower band gives trend "down" on that same
step; otherwise the trend is carried over and the band on the side of the
current trend ratchets — the final lower band cannot decrease while the
trend is up (mirrored for the final upper band while down).  The ratchet
holds only in this third branch: when the close breaks above the previous
final upper band the lower band is reset to the raw band (see the
counterexample). -/
theorem supertrend_step_rule (bars : List Bar) (period : ℕ) (mult : ℚ) (i : ℕ)
    (hi : i + 1 < bars.length) :
    (cGt (barAt bars (i + 1)).close (stState bars period mult i).2.1 = true →
        (stState bars period mult (i + 1)).1 = true)
      ∧ (cGt (barAt bars (i + 1)).close (stState bars period mult i).2.1 = false →
         cLt (barAt bars (i + 1)).close (stState bars period mult i).2.2 = true →
            (stState bars period mult (i + 1)).1 = false)
      ∧ (cGt (barAt bars (i + 1)).close (stState bars period mult i).2.1 = false →
         cLt (barAt bars (i + 1)).close (stState bars period mult i).2.2 = false →
            (stState bars period mult (i + 1)).1 = (stState bars period mult i).1
          ∧ ((stState bars period mult i).1 = true →
              ∀ v, (stState bars period mult i).2.2 = some v →
                ∃ w, (stState bars period mult (i + 1)).2.2 = some w ∧ v ≤ w)
          ∧ ((stState bars period mult i).1 = false →
              ∀ v, (stState bars period mult i).2.1 = some v →
                ∃ w, (stState bars period mult (i + 1)).2.1 = some w ∧ w ≤ v)) := by
  refine ⟨?_, ?_, ?_⟩
  · intro h
    simp [stState, h]
  · intro h1 h2
    simp [stState, h1, h2]
  · intro h1 h2
    refine ⟨?_, ?_, ?_⟩
    · simp [stState, h1, h2]
    · intro ht v hv
      rw [hv] at h2
      have hraw : (rawLB bars period mult (i + 1)).isSome := by
        have h0 : (stState bars period mult i).2.2.isSome = true := by rw [hv]; rfl
        rw [finalLB_isSome, rawLB_isSome] at h0
        rw [rawLB_isSome]
        exact ⟨le_trans h0.1 (by omega), hi⟩
      obtain ⟨x, hx⟩ := Option.isSome_iff_exists.mp hraw
      by_cases hc : x < v
      · refine ⟨v, ?_, le_refl v⟩
        simp [stState, h1, h2, ht, hv, hx, oLt, hc]
      · refine ⟨x, ?_, le_of_not_lt hc⟩
        simp [stState, h1, h2, ht, hv, hx, oLt, hc]
    · intro ht v hv
      rw [hv] at h1
      have hraw : (rawUB bars period mult (i + 1)).isSome := by
        have h0 : (stState bars period mult i).2.1.isSome = true := by rw [hv]; rfl
        rw [finalUB_isSome, rawUB_isSome] at h0
        rw [rawUB_isSome]
        exact ⟨le_trans h0.1 (by omega), hi⟩
      obtain ⟨x, hx⟩ := Option.isSome_iff_exists.mp hraw
      by_cases hc : v < x
      · refine ⟨v, ?_, le_refl v⟩
        simp [stState, h1, h2, ht, hv, hx, oGt, hc]
      · refine ⟨x, ?_, le_of_not_lt hc⟩
        simp [stState, h1, h2, ht, hv, hx, oGt, hc]

/-- C1 witness: the amended step rule applied to `ratchetBars` at step 10
(the in-band step where the ratchet keeps the final lower band at 100). -/
theorem supertrend_step_rule_witness :
    (stState ratchetBars 10 3 10).1 = (stState ratchetBars 10 3 9).1
      ∧ ∃ w, (stState ratchetBars 10 3 10).2.2 = some w ∧ 100 ≤ w := by
  have h := (supertrend_step_rule ratchetBars 10 3 9 (by norm_num [ratchetBars])).2.2
    (by norm_num [stState, rawUB, rawLB, atrAt, rollingMeanAt, trList, trAux, ratchetBars, hl2,
      barAt, List.replicate, cGt, cLt, oLt, oGt])
    (by norm_num [stState, rawUB, rawLB, atrAt, rollingMeanAt, trList, trAux, ratchetBars, hl2,
      barAt, List.replicate, cGt, cLt, oLt, oGt])
  refine ⟨h.1, h.2.1 ?_ 100 ?_⟩ <;>
    norm_num [stState, rawUB, rawLB, atrAt, rollingMeanAt, trList, trAux, ratchetBars, hl2,
      barAt, List.replicate, cGt, cLt, oLt, oGt]

/-! ## Trend label (`get_trend_signal`, technical.py lines 35–47) -/

/-- The trailing `n` elements of a series (`Series.tail(n)`). -/
def lastN (n : ℕ) (xs : List ℚ) : List ℚ := xs.drop (xs.length - n)

/-- Model of `rolling(p).mean()` read at the last index: `NaN` (`none`) if fewer than
`p` samples exist, else the mean of the trailing `p` samples. -/
def lastMean (p : ℕ) (xs : List ℚ) : Option ℚ :=
  if xs.length < p then none else some ((lastN p xs).sum / p)

/-- Model of `df.Close.iloc[-1]`; every use is guarded by non-emptiness. -/
def lastClose (closes : List ℚ) : ℚ := closes.getLastD 0

/-- Model of `get_trend_signal` (technical.py lines 35–47) on the Close column.
`df.empty or len(df) < 20` collapses to the length test.  The float
constants 1.05 and 0.95 are modelled by the exact rationals 21/20 and
19/20. -/
def get_trend_signal (closes : List ℚ) : String :=
  if closes.length < 20 then "N/A"
  else
    let sma := (lastN 20 closes).sum / 20
    let current := lastClose closes
    if current > sma * (21/20) then "Strong Bullish"
    else if current > sma then "Bullish"
    else if current < sma * (19/20) then "Strong Bearish"
    else "Bearish"

/-- The trend label as the claim words it, as a function of the ratio
`r = latest close / SMA-20` (spec §4.3). -/
def trendLabelOfRatio (r : ℚ) : String :=
  if 21/20 < r then "Strong Bullish"
  else if 1 < r then "Bullish"
  else if r < 19/20 then "Strong Bearish"
  else "Bearish"

/-! ## Composite scoring stage (`analyze_stock`, main.py lines 167–205) -/

/-- Python truthiness of an optional float: `None` and `0.0` are falsy. -/
def pyTruthy : Option ℚ → Bool
  | none => false
  | some v => decide (v ≠ 0)

/-- Model of `if rsi and 40 <= rsi <= 60` (main.py line 173). -/
def rsiNeutral : Option ℚ → Bool
  | none => false
  | some v => decide (v ≠ 0) && (decide (40 ≤ v) && decide (v ≤ 60))

/-- Technical score (main.py lines 170–173): base 50, +20 when the
SuperTrend signal string is "Bullish", +15 when the RSI is truthy and within
[40, 60].  No clamp is applied. -/
def techScore (rsi : Option ℚ) (stSignal : Option String) : ℤ :=
  50 + (if stSignal = some "Bullish" then 20 else 0) + (if rsiNeutral rsi then 15 else 0)

/-- Model of `if de and de < 1` (main.py line 180): a debt-to-equity of exactly 0 is
falsy and earns no bonus. -/
def deBonus : Option ℚ → Bool
  | none => false
  | some v => decide (v ≠ 0) && decide (v < 1)

/-- Model of `if roce and roce > 15` (main.py line 181). -/
def roceBonus : Option ℚ → Bool
  | none => false
  | some v => decide (v ≠ 0) && decide (15 < v)

/-- Fundamental score (main.py lines 177–181): base 50 plus the two
bonuses.  No clamp is applied. -/
def fundScore (de roce : Option ℚ) : ℤ :=
  50 + (if deBonus de then 20 else 0) + (if roceBonus roce then 20 else 0)

/-- The fundamental score as the claim words it: +20 whenever a present
debt-to-equity is < 1 (including 0), +20 whenever a present ROCE is > 15,
clamped to [0, 100]. -/
def fundScore_spec (de roce : Option ℚ) : ℤ :=
  min (max (50 + (if (match de with | some v => decide (v < 1) | none => false) then 20 else 0)
    + (if (match roce with | some v => decide (15 < v) | none => false) then 20 else 0)) 0) 100

/-- Python `int(x)` on a float: truncation toward zero. -/
def pyInt (q : ℚ) : ℤ := if q < 0 then ⌈q⌉ else ⌊q⌋

/-- Sentiment score (main.py line 184):
`int((sent_data.get("average_polarity", 0) + 1) * 50)`; a missing polarity
defaults to 0. -/
def sentScore (avgPolarity : Option ℚ) : ℤ :=
  pyInt ((avgPolarity.getD 0 + 1) * 50)

/-- The sentiment score as the claim words it: `round((polarity + 1) * 50)`
with rounding to the nearest integer. -/
def sentScore_spec (p : ℚ) : ℤ := round ((p + 1) * 50)

/-- Overall score before clamping (main.py line 186):
`int(tech*0.4 + fund*0.4 + sent*0.2)`; the float weights 0.4 and 0.2 are
modelled by the exact rationals 2/5 and 1/5. -/
def overallScoreRaw (t f s : ℤ) : ℤ :=
  pyInt ((t : ℚ) * (2/5) + (f : ℚ) * (2/5) + (s : ℚ) * (1/5))

/-- Clamped overall score (main.py line 187): `min(max(overall, 0), 100)`. -/
def overallScore (t f s : ℤ) : ℤ := min (max (overallScoreRaw t f s) 0) 100

/-- The overall score as the claim words it: weighted sum rounded to the
nearest integer, then clamped to [0, 100]. -/
def overallScore_spec (t f s : ℤ) : ℤ :=
  min (max (round ((t : ℚ) * (2/5) + (f : ℚ) * (2/5) + (s : ℚ) * (1/5))) 0) 100

/-- Signal/verdict threshold table (main.py lines 189–192).  The verdict
strings carry the emoji suffixes present in the source literals. -/
def signalVerdict (n : ℤ) : String × String :=
  if n > 70 then ("STRONG BUY", "TREASURE 💎")
  else if n > 50 then ("BUY", "TREASURE 💎")
  else if n > 40 then ("HOLD", "TRAP ⚠️")
  else ("SELL", "TRAP ⚠️")

/-- Concrete 20-sample positive close series used as the C9 witness input:
nineteen closes at 1 and a final close at 2. -/
def risingCloses : List ℚ := List.replicate 19 1 ++ [2]

theorem list_sum_pos_of_pos {l : List ℚ} (h : ∀ x ∈ l, 0 < x) (hne : l ≠ []) :
    0 < l.sum :=
  List.sum_pos l h hne

/-- C9 (proved).  `get_trend_signal` returns "N/A" below 20 samples, and on
a positive series of at least 20 samples it equals the label the claim gives to the
ratio `latest close / SMA-20`. -/
theorem trend_label_by_ratio (closes : List ℚ) (hpos : ∀ c ∈ closes, 0 < c) :
    (closes.length < 20 → get_trend_signal closes = "N/A")
      ∧ (20 ≤ closes.length →
          get_trend_signal closes =
            trendLabelOfRatio (lastClose closes / ((lastN 20 closes).sum / 20))) := by
  constructor
  · intro h
    simp [get_trend_signal, h]
  · intro h20
    have hne : lastN 20 closes ≠ [] := by
      have : (lastN 20 closes).length = 20 := by
        simp only [lastN, List.length_drop]
        omega
      intro hc
      rw [hc] at this
      simp at this
    have hsum : 0 < (lastN 20 closes).sum :=
      list_sum_pos_of_pos (fun x hx => hpos x (List.drop_subset _ _ hx)) hne
    have hsma : 0 < (lastN 20 closes).sum / 20 := by positivity
    have h1 : (21/20 < lastClose closes / ((lastN 20 closes).sum / 20)) ↔
        ((lastN 20 closes).sum / 20 * (21/20) < lastClose closes) := by
      rw [lt_div_iff₀ hsma, mul_comm]
    have h2 : (1 < lastClose closes / ((lastN 20 closes).sum / 20)) ↔
        ((lastN 20 closes).sum / 20 < lastClose closes) := by
      rw [lt_div_iff₀ hsma, one_mul]
    have h3 : (lastClose closes / ((lastN 20 closes).sum / 20) < 19/20) ↔
        (lastClose closes < (lastN 20 closes).sum / 20 * (19/20)) := by
      rw [div_lt_iff₀ hsma, mul_comm]
    simp only [get_trend_signal, trendLabelOfRatio, gt_iff_lt, h1, h2, h3,
      if_neg (by omega : ¬closes.length < 20)]

/-- C9 witness: the theorem applied to the concrete positive 20-sample
series `risingCloses` (ratio 40/21, label "Strong Bullish"). -/
theorem trend_label_by_ratio_witness :
    get_trend_signal risingCloses =
      trendLabelOfRatio (lastClose risingCloses / ((lastN 20 risingCloses).sum / 20)) :=
  (trend_label_by_ratio risingCloses
    (by
      intro c hc
      simp only [risingCloses, List.mem_append, List.mem_replicate, List.mem_singleton] at hc
      rcases hc with ⟨-, h⟩ | h <;> rw [h] <;> norm_num)).2
    (by norm_num [risingCloses])

/-- C10 (proved).  The technical score is one of {50, 65, 70, 85} — hence in
[0, 100] although no clamp is applied — it decomposes as the SuperTrend part
plus the RSI bonus, and the +15 bonus fires exactly when an RSI value is
present, truthy, and in [40, 60]. -/
theorem tech_score_values (rsi : Option ℚ) (st : Option String) :
    (techScore rsi st = 50 ∨ techScore rsi st = 65 ∨ techScore rsi st = 70 ∨
        techScore rsi st = 85)
      ∧ 0 ≤ techScore rsi st ∧ techScore rsi st ≤ 100
      ∧ techScore rsi st =
          (if st = some "Bullish" then 70 else 50) + (if rsiNeutral rsi then 15 else 0)
      ∧ (rsiNeutral rsi = true ↔ ∃ v, rsi = some v ∧ v ≠ 0 ∧ 40 ≤ v ∧ v ≤ 60) := by
  refine ⟨?_, ?_, ?_, ?_, ?_⟩
  · unfold techScore
    split <;> split <;> norm_num
  · unfold techScore
    split <;> split <;> norm_num
  · unfold techScore
    split <;> split <;> norm_num
  · unfold techScore
    split <;> norm_num
  · cases rsi with
    | none => simp [rsiNeutral]
    | some v =>
        simp only [rsiNeutral, Bool.and_eq_true, decide_eq_true_eq]
        constructor
        · rintro ⟨h1, h2, h3⟩
          exact ⟨v, rfl, h1, h2, h3⟩
        · rintro ⟨w, hw, h1, h2, h3⟩
          cases Option.some.injEq v w ▸ hw
          exact ⟨h1, h2, h3⟩

/-- C3 (counterexample).  At technical = fundamental = 50 and sentiment = 49
the exact weighted sum is 49.8: `int()` truncates it to 49 while the claimed
rounding gives 50.  (A binary-float evaluation of the sum differs from 49.8
by less than 1e-13 and truncates to the same 49.) -/
theorem overall_score_counterexample :
    overallScore 50 50 49 = 49 ∧ overallScore_spec 50 50 49 = 50 ∧ (49 : ℤ) ≠ 50 := by
  refine ⟨?_, ?_, by decide⟩
  · norm_num [overallScore, overallScoreRaw, pyInt]
  · norm_num [overallScore_spec, round_eq]

/-- C3 (amended, proved).  The overall score is the weighted sum
`0.4·technical + 0.4·fundamental + 0.2·sentiment` truncated toward zero by
`int()` (not rounded to nearest), then clamped to [0, 100]; in particular it
always lies in [0, 100], whatever the input scores. -/
theorem overall_score_truncated_clamped (t f s : ℤ) :
    overallScore t f s =
        min (max (pyInt ((t : ℚ) * (2/5) + (f : ℚ) * (2/5) + (s : ℚ) * (1/5))) 0) 100
      ∧ 0 ≤ overallScore t f s ∧ overallScore t f s ≤ 100 := by
  refine ⟨rfl, ?_, ?_⟩ <;>
    · unfold overallScore
      omega

/-- C4 (counterexample).  At overall score 80 the verdict literal is
"TREASURE 💎", not the "TREASURE" of the claim (the source literals carry emoji
suffixes). -/
theorem signal_verdict_counterexample :
    signalVerdict 80 = ("STRONG BUY", "TREASURE 💎")
      ∧ ("TREASURE 💎" : String) ≠ "TREASURE" := by
  constructor
  · simp [signalVerdict]
  · decide

/-- C4 (amended, proved).  The ordered first-match threshold table of
main.py lines 189–192, with the verdict literals of the source:
"TREASURE 💎" / "TRAP ⚠️". -/
theorem signal_verdict_table (n : ℤ) :
    (70 < n → signalVerdict n = ("STRONG BUY", "TREASURE 💎"))
      ∧ (50 < n → n ≤ 70 → signalVerdict n = ("BUY", "TREASURE 💎"))
      ∧ (40 < n → n ≤ 50 → signalVerdict n = ("HOLD", "TRAP ⚠️"))
      ∧ (n ≤ 40 → signalVerdict n = ("SELL", "TRAP ⚠️")) := by
  refine ⟨?_, ?_, ?_, ?_⟩
  · intro h
    unfold signalVerdict
    rw [if_pos (by omega : n > 70)]
  · intro h1 h2
    unfold signalVerdict
    rw [if_neg (by omega : ¬n > 70), if_pos (by omega : n > 50)]
  · intro h1 h2
    unfold signalVerdict
    rw [if_neg (by omega : ¬n > 70), if_neg (by omega : ¬n > 50), if_pos (by omega : n > 40)]
  · intro h
    unfold signalVerdict
    rw [if_neg (by omega : ¬n > 70), if_neg (by omega : ¬n > 50), if_neg (by omega : ¬n > 40)]

/-- C4 witness: the amended table applied at overall score 45. -/
theorem signal_verdict_table_witness : signalVerdict 45 = ("HOLD", "TRAP ⚠️") :=
  (signal_verdict_table 45).2.2.1 (by norm_num) (by norm_num)

/-- C6 (counterexample).  A debt-to-equity of exactly 0 (with ROCE absent)
is falsy in `if de and de < 1`, so the code scores 50, while the clause
"+20 whenever de < 1 (including de = 0)" of the claim demands 70. -/
theorem fund_score_counterexample :
    fundScore (some 0) none = 50 ∧ fundScore_spec (some 0) none = 70 ∧ (50 : ℤ) ≠ 70 := by
  refine ⟨?_, ?_, by decide⟩
  · simp [fundScore, deBonus, roceBonus]
  · simp [fundScore_spec]

/-- C6 (amended, proved).  The fundamental score is 50 plus 20 for a
present, non-zero debt-to-equity below 1 (a value of exactly 0 earns no
bonus) plus 20 for a present ROCE above 15; it is always one of
{50, 70, 90}, hence in [0, 100] with no clamp applied or needed. -/
theorem fund_score_truthy (de roce : Option ℚ) :
    (fundScore de roce = 50 ∨ fundScore de roce = 70 ∨ fundScore de roce = 90)
      ∧ 0 ≤ fundScore de roce ∧ fundScore de roce ≤ 100
      ∧ (deBonus de = true ↔ ∃ v, de = some v ∧ v ≠ 0 ∧ v < 1)
      ∧ (roceBonus roce = true ↔ ∃ v, roce = some v ∧ 15 < v)
      ∧ fundScore (some 0) roce = fundScore none roce := by
  refine ⟨?_, ?_, ?_, ?_, ?_, ?_⟩
  · unfold fundScore
    split <;> split <;> norm_num
  · unfold fundScore
    split <;> split <;> norm_num
  · unfold fundScore
    split <;> split <;> norm_num
  · cases de with
    | none => simp [deBonus]
    | some v =>
        simp only [deBonus, Bool.and_eq_true, decide_eq_true_eq]
        constructor
        · rintro ⟨h1, h2⟩
          exact ⟨v, rfl, h1, h2⟩
        · rintro ⟨w, hw, h1, h2⟩
          cases Option.some.injEq v w ▸ hw
          exact ⟨h1, h2⟩
  · cases roce with
    | none => simp [roceBonus]
    | some v =>
        simp only [roceBonus, Bool.and_eq_true, decide_eq_true_eq]
        constructor
        · rintro ⟨-, h2⟩
          exact ⟨v, rfl, h2⟩
        · rintro ⟨w, hw, h2⟩
          cases Option.some.injEq v w ▸ hw
          exact ⟨by positivity, h2⟩
  · simp [fundScore, deBonus]

/-- C7 (counterexample).  At average polarity 0.018 the rescaled value is
50.9: `int()` truncates to 50 while the claimed `round` gives 51.  (The
binary-float value of `(0.018 + 1) * 50` differs from 50.9 by well under
1e-12 and truncates to the same 50.) -/
theorem sent_score_counterexample :
    sentScore (some (9/500)) = 50 ∧ sentScore_spec (9/500) = 51 ∧ (50 : ℤ) ≠ 51 := by
  refine ⟨?_, ?_, by decide⟩
  · norm_num [sentScore, pyInt]
  · norm_num [sentScore_spec, round_eq]

/-- C7 (amended, proved).  The sentiment score is
`int((polarity + 1) * 50)`, i.e. the floor (truncation toward zero of a
non-negative value) of the linear rescale — not the rounding the claim
states; a missing polarity defaults to 0 (score 50), polarity 1 still
yields exactly 100, and for polarity in [-1, 1] the score lies in [0, 100]. -/
theorem sent_score_truncated (p : ℚ) (hp : -1 ≤ p) :
    sentScore (some p) = ⌊(p + 1) * 50⌋
      ∧ 0 ≤ sentScore (some p)
      ∧ (p ≤ 1 → sentScore (some p) ≤ 100)
      ∧ sentScore (some 1) = 100
      ∧ sentScore none = 50 := by
  have hnn : (0 : ℚ) ≤ (p + 1) * 50 := by nlinarith
  have hfl : sentScore (some p) = ⌊(p + 1) * 50⌋ := by
    simp [sentScore, pyInt, not_lt.mpr hnn]
  refine ⟨hfl, ?_, ?_, ?_, ?_⟩
  · rw [hfl]
    exact Int.floor_nonneg.mpr hnn
  · intro h1
    rw [hfl]
    have h100 : (p + 1) * 50 ≤ (100 : ℚ) := by nlinarith
    calc ⌊(p + 1) * 50⌋ ≤ ⌊(100 : ℚ)⌋ := Int.floor_mono h100
    _ = 100 := by norm_num
  · norm_num [sentScore, pyInt]
  · norm_num [sentScore, pyInt]

/-- C7 witness: the amended statement applied at polarity 1/2 (score 75). -/
theorem sent_score_truncated_witness :
    sentScore (some (1/2)) = ⌊(((1:ℚ)/2) + 1) * 50⌋
      ∧ 0 ≤ sentScore (some (1/2))
      ∧ ((1:ℚ)/2 ≤ 1 → sentScore (some (1/2)) ≤ 100)
      ∧ sentScore (some 1) = 100
      ∧ sentScore none = 50 :=
  sent_score_truncated (1/2) (by norm_num)

/-! ## Python rounding helpers -/

/-- Python `round` to the nearest integer: ties go to the even integer. -/
def rte (q : ℚ) : ℤ :=
  if q - ⌊q⌋ = 1/2 then (if 2 ∣ ⌊q⌋ then ⌊q⌋ else ⌊q⌋ + 1) else round q

/-- Python `round(x, 2)` on a defined float, as an exact rational. -/
def round2 (q : ℚ) : ℚ := (rte (q * 100) : ℚ) / 100

theorem rte_bounds (q : ℚ) : ⌊q⌋ ≤ rte q ∧ rte q ≤ ⌈q⌉ := by
  unfold rte
  split
  · rename_i h
    have hlt : (⌊q⌋ : ℚ) < q := by linarith [Int.floor_le q]
    have hceil : ⌊q⌋ + 1 ≤ ⌈q⌉ := by
      have h1 : (⌊q⌋ : ℚ) < (⌈q⌉ : ℚ) := lt_of_lt_of_le hlt (Int.le_ceil q)
      exact_mod_cast Int.add_one_le_iff.mpr (by exact_mod_cast h1)
    split
    · exact ⟨le_refl _, by omega⟩
    · exact ⟨by omega, hceil⟩
  · constructor
    · rw [round_eq]
      exact Int.floor_mono (by linarith)
    · rw [round_eq]
      rw [Int.floor_le_iff]
      have := Int.le_ceil q
      linarith

theorem rte_nonneg {q : ℚ} (h : 0 ≤ q) : 0 ≤ rte q := by
  have h1 := (rte_bounds q).1
  have h2 : (0 : ℤ) ≤ ⌊q⌋ := Int.floor_nonneg.mpr h
  omega

theorem rte_le_of_le {q : ℚ} {N : ℤ} (h : q ≤ N) : rte q ≤ N := by
  have h1 := (rte_bounds q).2
  have h2 : ⌈q⌉ ≤ N := Int.ceil_le.mpr h
  omega

/-- Rounding `round(x, 2)` maps [0, 100] into [0, 100]. -/
theorem round2_mem_Icc {v : ℚ} (h0 : 0 ≤ v) (h1 : v ≤ 100) :
    0 ≤ round2 v ∧ round2 v ≤ 100 := by
  unfold round2
  have hn : 0 ≤ rte (v * 100) := rte_nonneg (by nlinarith)
  have hl : rte (v * 100) ≤ (10000 : ℤ) :=
    rte_le_of_le (by exact_mod_cast (by nlinarith : v * 100 ≤ (10000 : ℚ)))
  constructor
  · positivity
  · rw [div_le_iff₀ (by norm_num : (0:ℚ) < 100)]
    calc (rte (v * 100) : ℚ) ≤ (10000 : ℚ) := by exact_mod_cast hl
    _ = 100 * 100 := by norm_num

/-! ## RSI (technical.py lines 69–74 and 105) -/

/-- Tail of `delta.where(delta > 0, 0)`: the positive day-over-day change,
else 0. -/
def gainsAux (prev : ℚ) : List ℚ → List ℚ
  | [] => []
  | c :: rest => (if prev < c then c - prev else 0) :: gainsAux c rest

/-- Model of `delta.where(delta > 0, 0)` for `delta = Close.diff()`.  The first delta
is `NaN`; `NaN > 0` is `False`, so `where` coerces it to 0 (not `NaN`) —
hence the gain series has no `NaN` and its 14-window rolling mean is already
defined at index 13. -/
def gains : List ℚ → List ℚ
  | [] => []
  | c :: rest => 0 :: gainsAux c rest

/-- Tail of `(-delta.where(delta < 0, 0))`. -/
def lossesAux (prev : ℚ) : List ℚ → List ℚ
  | [] => []
  | c :: rest => (if c < prev then prev - c else 0) :: lossesAux c rest

/-- Model of `(-delta.where(delta < 0, 0))`, with the leading `NaN` likewise coerced
to 0. -/
def losses : List ℚ → List ℚ
  | [] => []
  | c :: rest => 0 :: lossesAux c rest

/-- Model of `gain.rolling(window=14).mean()` at the last index. -/
def meanGain (closes : List ℚ) : Option ℚ := lastMean 14 (gains closes)

/-- Model of `loss.rolling(window=14).mean()` at the last index. -/
def meanLoss (closes : List ℚ) : Option ℚ := lastMean 14 (losses closes)

/-- Model of `(100 - 100/(1 + gain/loss)).iloc[-1]` (technical.py lines 72–74), with
the IEEE semantics of the two degenerate divisions made explicit: a positive
gain over a zero loss gives `rs = +inf` and RSI exactly 100; a zero gain
over a zero loss gives `rs = NaN` and an undefined (`none`) RSI; an unfilled
window gives `NaN` (`none`). -/
def rsiLast (closes : List ℚ) : Option ℚ :=
  match meanGain closes, meanLoss closes with
  | some g, some l =>
      if l = 0 then (if g = 0 then none else some 100)
      else some (100 - 100 / (1 + g / l))
  | _, _ => none

/-- The `RSI` field of the snapshot (technical.py line 105):
`round(current_rsi, 2) if not np.isnan(current_rsi) else None`. -/
def reportedRSI (closes : List ℚ) : Option ℚ := (rsiLast closes).map round2

/-- A 14-close series (13 alternating ±1 moves): one close short of the 15
the claim requires for an RSI to exist. -/
def closes14 : List ℚ := [1, 2, 1, 2, 1, 2, 1, 2, 1, 2, 1, 2, 1, 2]

theorem gainsAux_length (p : ℚ) (l : List ℚ) : (gainsAux p l).length = l.length := by
  induction l generalizing p with
  | nil => rfl
  | cons c rest ih => simp [gainsAux, ih]

theorem gains_length (l : List ℚ) : (gains l).length = l.length := by
  cases l with
  | nil => rfl
  | cons c rest => simp [gains, gainsAux_length]

theorem lossesAux_length (p : ℚ) (l : List ℚ) : (lossesAux p l).length = l.length := by
  induction l generalizing p with
  | nil => rfl
  | cons c rest ih => simp [lossesAux, ih]

theorem losses_length (l : List ℚ) : (losses l).length = l.length := by
  cases l with
  | nil => rfl
  | cons c rest => simp [losses, lossesAux_length]

theorem gainsAux_nonneg (p : ℚ) (l : List ℚ) : ∀ x ∈ gainsAux p l, 0 ≤ x := by
  induction l generalizing p with
  | nil => intro x hx; simp [gainsAux] at hx
  | cons c rest ih =>
      intro x hx
      simp only [gainsAux, List.mem_cons] at hx
      rcases hx with h | h
      · rw [h]
        split <;> [linarith; exact le_refl 0]
      · exact ih c x h

theorem gains_nonneg (l : List ℚ) : ∀ x ∈ gains l, 0 ≤ x := by
  cases l with
  | nil => intro x hx; simp [gains] at hx
  | cons c rest =>
      intro x hx
      simp only [gains, List.mem_cons] at hx
      rcases hx with h | h
      · rw [h]
      · exact gainsAux_nonneg c rest x h

theorem lossesAux_nonneg (p : ℚ) (l : List ℚ) : ∀ x ∈ lossesAux p l, 0 ≤ x := by
  induction l generalizing p with
  | nil => intro x hx; simp [lossesAux] at hx
  | cons c rest ih =>
      intro x hx
      simp only [lossesAux, List.mem_cons] at hx
      rcases hx with h | h
      · rw [h]
        split <;> [linarith; exact le_refl 0]
      · exact ih c x h

theorem losses_nonneg (l : List ℚ) : ∀ x ∈ losses l, 0 ≤ x := by
  cases l with
  | nil => intro x hx; simp [losses] at hx
  | cons c rest =>
      intro x hx
      simp only [losses, List.mem_cons] at hx
      rcases hx with h | h
      · rw [h]
      · exact lossesAux_nonneg c rest x h

theorem lastMean_isSome (p : ℕ) (xs : List ℚ) :
    (lastMean p xs).isSome ↔ p ≤ xs.length := by
  unfold lastMean
  split <;> rename_i h <;> simp <;> omega

theorem lastMean_nonneg {p : ℕ} {xs : List ℚ} (hnn : ∀ x ∈ xs, 0 ≤ x) :
    ∀ v, lastMean p xs = some v → 0 ≤ v := by
  intro v hv
  unfold lastMean at hv
  split at hv
  · exact absurd hv (by simp)
  · have hs : 0 ≤ (lastN p xs).sum :=
      List.sum_nonneg (fun x hx => hnn x (List.drop_subset _ _ hx))
    rw [Option.some.injEq] at hv
    rw [← hv]
    positivity

theorem meanGain_nonneg (closes : List ℚ) :
    ∀ v, meanGain closes = some v → 0 ≤ v :=
  fun v hv => lastMean_nonneg (gains_nonneg closes) v hv

theorem meanLoss_nonneg (closes : List ℚ) :
    ∀ v, meanLoss closes = some v → 0 ≤ v :=
  fun v hv => lastMean_nonneg (losses_nonneg closes) v hv

theorem rsiLast_eq_none_gain {closes : List ℚ} (hg : meanGain closes = none) :
    rsiLast closes = none := by
  unfold rsiLast
  rw [hg]

theorem rsiLast_eq_none_loss {closes : List ℚ} (hl : meanLoss closes = none) :
    rsiLast closes = none := by
  unfold rsiLast
  rw [hl]
  cases meanGain closes <;> rfl

theorem rsiLast_eq_some {closes : List ℚ} {g l : ℚ}
    (hg : meanGain closes = some g) (hl : meanLoss closes = some l) :
    rsiLast closes =
      if l = 0 then (if g = 0 then none else some 100)
      else some (100 - 100 / (1 + g / l)) := by
  unfold rsiLast
  rw [hg, hl]

theorem rsiLast_isSome_iff (closes : List ℚ) :
    (rsiLast closes).isSome ↔
      (14 ≤ closes.length ∧ ¬(meanGain closes = some 0 ∧ meanLoss closes = some 0)) := by
  cases hg : meanGain closes with
  | none =>
      have hlen : ¬(14 ≤ closes.length) := by
        intro hc
        have := (lastMean_isSome 14 (gains closes)).mpr (by rw [gains_length]; exact hc)
        rw [show lastMean 14 (gains closes) = meanGain closes from rfl, hg] at this
        simp at this
      rw [rsiLast_eq_none_gain hg]
      simp [hlen]
  | some g =>
      have hlen : 14 ≤ closes.length := by
        have := (lastMean_isSome 14 (gains closes)).mp
          (by rw [show lastMean 14 (gains closes) = meanGain closes from rfl, hg]; simp)
        rw [gains_length] at this
        exact this
      cases hl : meanLoss closes with
      | none =>
          have him : (lastMean 14 (losses closes)).isSome := by
            rw [lastMean_isSome, losses_length]
            exact hlen
          rw [show lastMean 14 (losses closes) = meanLoss closes from rfl, hl] at him
          simp at him
      | some l =>
          rw [rsiLast_eq_some hg hl]
          by_cases hl0 : l = 0
          · by_cases hg0 : g = 0
            · rw [if_pos hl0, if_pos hg0]
              simp only [Option.isSome_none, Bool.false_eq_true, false_iff]
              rintro ⟨-, hc⟩
              exact hc ⟨by rw [hg0], by rw [hl0]⟩
            · rw [if_pos hl0, if_neg hg0]
              simp only [Option.isSome_some, true_iff]
              refine ⟨hlen, ?_⟩
              rintro ⟨hc, -⟩
              rw [Option.some.injEq] at hc
              exact hg0 hc
          · rw [if_neg hl0]
            simp only [Option.isSome_some, true_iff]
            refine ⟨hlen, ?_⟩
            rintro ⟨-, hc⟩
            rw [Option.some.injEq] at hc
            exact hl0 hc

theorem rsiLast_bounds (closes : List ℚ) :
    ∀ v, rsiLast closes = some v →
      0 ≤ v ∧ v ≤ 100 ∧
        (v = 100 ↔ (meanLoss closes = some 0 ∧ ∃ g, meanGain closes = some g ∧ 0 < g)) := by
  intro v hv
  cases hg : meanGain closes with
  | none => rw [rsiLast_eq_none_gain hg] at hv; simp at hv
  | some g =>
      cases hl : meanLoss closes with
      | none => rw [rsiLast_eq_none_loss hl] at hv; simp at hv
      | some l =>
          rw [rsiLast_eq_some hg hl] at hv
          have hgnn : 0 ≤ g := meanGain_nonneg closes g hg
          have hlnn : 0 ≤ l := meanLoss_nonneg closes l hl
          by_cases hl0 : l = 0
          · by_cases hg0 : g = 0
            · rw [if_pos hl0, if_pos hg0] at hv
              simp at hv
            · rw [if_pos hl0, if_neg hg0] at hv
              rw [Option.some.injEq] at hv
              rw [← hv]
              refine ⟨by norm_num, le_refl _, ?_⟩
              simp only [true_iff]
              exact ⟨by rw [hl0], g, rfl, lt_of_le_of_ne hgnn (Ne.symm hg0)⟩
          · rw [if_neg hl0] at hv
            rw [Option.some.injEq] at hv
            have hlpos : 0 < l := lt_of_le_of_ne hlnn (Ne.symm hl0)
            have hrs : 0 ≤ g / l := div_nonneg hgnn (le_of_lt hlpos)
            have hden : (0:ℚ) < 1 + g / l := by linarith
            have hfrac_pos : 0 < 100 / (1 + g / l) := by positivity
            have hfrac_le : 100 / (1 + g / l) ≤ 100 := by
              rw [div_le_iff₀ hden]
              nlinarith
            rw [← hv]
            refine ⟨by linarith, by linarith, ?_⟩
            constructor
            · intro hc
              exfalso
              have h0 : 100 / (1 + g / l) = 0 := by linarith
              rw [div_eq_zero_iff] at h0
              rcases h0 with h | h
              · norm_num at h
              · linarith
            · rintro ⟨hc, -⟩
              rw [Option.some.injEq] at hc
              exact absurd hc hl0

/-- C5 (counterexample).  `closes14` has only 14 closes — fewer than the 15
the claim requires for an RSI to exist — yet the reported RSI is defined
(53.85): the pandas `where(delta > 0, 0)` coerces the leading `NaN` diff to 0,
so the 14-sample rolling window is already filled at the 14th close. -/
theorem rsi_present_at_14_closes :
    closes14.length = 14 ∧ reportedRSI closes14 = some (1077/20) := by
  constructor
  · norm_num [closes14]
  · norm_num [reportedRSI, rsiLast, meanGain, meanLoss, lastMean, lastN, gains, losses,
      gainsAux, lossesAux, closes14, round2, rte, round_eq]

/-- C5 (amended, proved).  The last-index RSI is defined exactly when at
least 14 closes exist and the trailing window is not completely flat (zero
mean gain and zero mean loss give `0/0 = NaN`); every defined value lies in
[0, 100] and equals 100 exactly when the trailing 14-period mean loss is 0
and the mean gain is positive; the reported value (rounded to 2 decimals)
also lies in [0, 100]. -/
theorem rsi_last_characterization (closes : List ℚ) :
    ((rsiLast closes).isSome ↔
        (14 ≤ closes.length ∧ ¬(meanGain closes = some 0 ∧ meanLoss closes = some 0)))
      ∧ (∀ v, rsiLast closes = some v →
          0 ≤ v ∧ v ≤ 100 ∧
            (v = 100 ↔ (meanLoss closes = some 0 ∧ ∃ g, meanGain closes = some g ∧ 0 < g)))
      ∧ (∀ v, reportedRSI closes = some v → 0 ≤ v ∧ v ≤ 100) := by
  refine ⟨rsiLast_isSome_iff closes, rsiLast_bounds closes, ?_⟩
  intro v hv
  unfold reportedRSI at hv
  cases hw : rsiLast closes with
  | none => rw [hw] at hv; simp at hv
  | some w =>
      rw [hw] at hv
      rw [show Option.map round2 (some w) = some (round2 w) from rfl,
        Option.some.injEq] at hv
      have hb := rsiLast_bounds closes w hw
      rw [← hv]
      exact round2_mem_Icc hb.1 hb.2.1

/-- C5 witness: the characterization applied to `closes14`, whose unrounded
RSI evaluates to 700/13. -/
theorem rsi_last_characterization_witness :
    0 ≤ (700/13 : ℚ) ∧ (700/13 : ℚ) ≤ 100
      ∧ ((700/13 : ℚ) = 100 ↔
          (meanLoss closes14 = some 0 ∧ ∃ g, meanGain closes14 = some g ∧ 0 < g)) :=
  (rsi_last_characterization closes14).2.1 (700/13)
    (by norm_num [rsiLast, meanGain, meanLoss, lastMean, lastN, gains, losses,
      gainsAux, lossesAux, closes14])

/-! ## Scoring + rationale stage of `analyze_stock` (main.py lines 167–205) -/

/-- Python `needle in hay` on strings (substring containment). -/
def pyIn (needle hay : String) : Bool := (hay.splitOn needle).length ≠ 1

/-- Python f-string interpolation of an optional string: `None` renders as
"None". -/
def pyStr : Option String → String
  | none => "None"
  | some s => s

/-- Python `f"{x:.2f}"` on an optional float.  A `None` value raises
`TypeError: unsupported format string passed to NoneType.__format__`, which
escapes the scoring stage (and surfaces as an HTTP 500).  The defined case
renders the value rounded to 2 decimals; its exact decimal spelling is
abstracted to the rational numeral — no claim depends on the digits, only on
definedness and determinism. -/
def fmt2 : Option ℚ → Except String String
  | none => Except.error "unsupported format string passed to NoneType.__format__"
  | some q => Except.ok (toString (round2 q))

/-- The inputs the scoring stage reads: `tech_data.get("RSI")`,
`tech_data.get("SuperTrend", {}).get("signal")`,
`metrics.get("debt_to_equity")`, `metrics.get("roce")`,
`metrics.get("intrinsic_value")`, `sent_data.get("average_polarity", 0)`
(the default 0 is applied at use), and the three timeframe labels. -/
structure ScoringInput where
  rsi : Option ℚ
  stSignal : Option String
  de : Option ℚ
  roce : Option ℚ
  intrinsic : Option ℚ
  avgPolarity : Option ℚ
  tfDaily : String
  tfWeekly : String
  tfMonthly : String
deriving Repr, DecidableEq

/-- The composite result assembled by the scoring stage. -/
structure CompositeScore where
  tech : ℤ
  fund : ℤ
  sent : ℤ
  overall : ℤ
  signal : String
  verdict : String
  rationale : String
deriving Repr, DecidableEq

/-- The `expert_rationale` construction (main.py lines 195–205): the
multi-timeframe sentences, then the "Fundamental View" sentence whose two
`.2f` interpolations of ROCE and intrinsic value raise `TypeError` when the
value is `None` (the literal text "if available else N/A" sits inside the
f-string and is not a conditional). -/
def rationaleText (inp : ScoringInput) (verdict : String) : Except String String :=
  let base := "Technical View: The stock is showing a " ++ inp.tfDaily ++
    " trend on the daily chart and a " ++ inp.tfWeekly ++ " trend on the weekly chart. "
  let mid :=
    if inp.tfDaily = inp.tfWeekly ∧ inp.tfWeekly = inp.tfMonthly then
      "There is rare multi-timeframe alignment signaling a powerful " ++ inp.tfDaily ++ " phase. "
    else if pyIn "Bullish" inp.tfDaily && pyIn "Bearish" inp.tfWeekly then
      "We are seeing a potential bullish reversal on the short-term chart despite long-term pressure. "
    else
      "The monthly chart remains " ++ inp.tfMonthly ++
        ", indicating overall sideways or trending behavior. "
  match fmt2 inp.roce with
  | Except.error e => Except.error e
  | Except.ok r =>
      match fmt2 inp.intrinsic with
      | Except.error e => Except.error e
      | Except.ok iv =>
          Except.ok (base ++ mid ++ "Fundamental View: With an ROCE of " ++ r ++
            "% if available else N/A and an Intrinsic Value of " ++ iv ++
            ", the stock is technically " ++ pyStr inp.stSignal ++
            ". Overall Verdict: " ++ verdict ++ ".")

/-- The whole scoring stage (main.py lines 167–205): the four scores, the
signal/verdict lookup, then the rationale; a `TypeError` inside the
rationale aborts the stage. -/
def scoringStage (inp : ScoringInput) : Except String CompositeScore :=
  let t := techScore inp.rsi inp.stSignal
  let f := fundScore inp.de inp.roce
  let s := sentScore inp.avgPolarity
  let n := overallScore t f s
  let sv := signalVerdict n
  match rationaleText inp sv.2 with
  | Except.error e => Except.error e
  | Except.ok r => Except.ok ⟨t, f, s, n, sv.1, sv.2, r⟩

/-- A fully populated input except for ROCE. -/
def roceMissingInput : ScoringInput :=
  ⟨some 50, some "Bullish", some (1/2), none, some 100, some (1/2),
    "Bullish", "Bullish", "Bullish"⟩

/-- A fully populated input except for the intrinsic value. -/
def intrinsicMissingInput : ScoringInput :=
  ⟨some 50, some "Bullish", some (1/2), some 20, none, some (1/2),
    "Bullish", "Bullish", "Bullish"⟩

/-- A fully populated input. -/
def allPresentInput : ScoringInput :=
  ⟨some 50, some "Bullish", some (1/2), some 20, some 100, some (1/2),
    "Bullish", "Bullish", "Bullish"⟩

/-- C2 (the code aborts where the claim says it must not).  With every other
input present, a missing ROCE — or a missing intrinsic value — makes the
scoring stage raise `TypeError` inside the rationale f-string instead of
degrading to a neutral baseline; with both present the stage completes. -/
theorem scoring_stage_crash_on_missing_inputs :
    scoringStage roceMissingInput =
        Except.error "unsupported format string passed to NoneType.__format__"
      ∧ scoringStage intrinsicMissingInput =
        Except.error "unsupported format string passed to NoneType.__format__"
      ∧ (scoringStage allPresentInput).isOk = true := by
  refine ⟨rfl, rfl, rfl⟩

/-! ## Indicator aggregator (`calculate_technical_indicators`, technical.py
lines 49–122) -/

/-- A JSON-level float field of the snapshot: pandas propagates `NaN` into
`round(x, 2)`, so a field can hold `NaN` — distinct from an absent/`null`
field, which the output models as `Option.none` elsewhere. -/
inductive JNum where
  | nan : JNum
  | num : ℚ → JNum
deriving Repr, DecidableEq

/-- Rounding `round(x, 2)` on a possibly-`NaN` float: `round(nan, 2)` is `nan`. -/
def round2J : Option ℚ → JNum
  | none => JNum.nan
  | some v => JNum.num (round2 v)

/-- Tail of `ewm(span, adjust=False).mean()`:
`y[i] = α·x[i] + (1−α)·y[i−1]`. -/
def ewmAux (a acc : ℚ) : List ℚ → List ℚ
  | [] => []
  | x :: rest => (a * x + (1 - a) * acc) :: ewmAux a (a * x + (1 - a) * acc) rest

/-- Model of `series.ewm(span=s, adjust=False).mean()` with `α = 2/(s+1)`;
`y[0] = x[0]`, no warm-up gap. -/
def ewmSeries (span : ℕ) : List ℚ → List ℚ
  | [] => []
  | x :: rest => x :: ewmAux (2 / ((span : ℚ) + 1)) x rest

/-- MACD signal (technical.py lines 77–81): MACD line = EMA(12) − EMA(26),
signal line = EMA(9) of the MACD line, "Buy" iff the last MACD value exceeds
the last signal value. -/
def macdSignalOf (closes : List ℚ) : String :=
  let macd := List.zipWith (fun a b => a - b) (ewmSeries 12 closes) (ewmSeries 26 closes)
  let sig := ewmSeries 9 macd
  if macd.getLastD 0 > sig.getLastD 0 then "Buy" else "Sell"

/-- Model of `rolling(p).std()` (pandas sample standard deviation, ddof = 1) at the
last index: `NaN` below `p` samples.  The square root of the non-negative
rational variance is modelled by `Rat.sqrt` (exact on perfect squares); no
claim below reads the numeric value of a standard deviation, only its
definedness, which is faithful. -/
def lastStd (p : ℕ) (xs : List ℚ) : Option ℚ :=
  if xs.length < p then none
  else
    some (Rat.sqrt (((lastN p xs).map (fun x => (x - (lastN p xs).sum / p) ^ 2)).sum / (p - 1)))

/-- Model of `Series.tail(30).min()` on a non-empty series. -/
def listMin : List ℚ → Option ℚ
  | [] => none
  | x :: xs => some (xs.foldl min x)

/-- Model of `Series.tail(30).max()` on a non-empty series. -/
def listMax : List ℚ → Option ℚ
  | [] => none
  | x :: xs => some (xs.foldl max x)

/-- The dictionary returned by `calculate_technical_indicators`
(technical.py lines 104–120). -/
structure Snapshot where
  rsi : Option ℚ
  macdSignal : String
  bbUpper : JNum
  bbLower : JNum
  bbPosition : String
  stSignal : String
  stValue : JNum
  support : JNum
  resistance : JNum
  currentPrice : ℚ
  tfDaily : String
  tfWeekly : String
  tfMonthly : String
deriving Repr, DecidableEq

/-- Model of `calculate_technical_indicators` on already-fetched daily / weekly /
monthly frames (the `yfinance` retrieval is an external collaborator): the
"no data" marker for an empty daily frame, otherwise the assembled snapshot.
RSI alone converts `NaN` to `None` (line 105); the Bollinger bands and the
SuperTrend value keep `NaN` when their windows are unfilled. -/
def calculate_technical_indicators (daily weekly monthly : List Bar) :
    Except String Snapshot :=
  match daily with
  | [] => Except.error "No historical data found"
  | b :: bs =>
      let d := b :: bs
      let closes := d.map Bar.close
      let upper := (lastMean 20 closes).bind
        (fun m => (lastStd 20 closes).map (fun sd => m + sd * 2))
      let lower := (lastMean 20 closes).bind
        (fun m => (lastStd 20 closes).map (fun sd => m - sd * 2))
      let currentPrice := closes.getLastD 0
      let st := calculate_supertrend d
      Except.ok
        { rsi := reportedRSI closes
          macdSignal := macdSignalOf closes
          bbUpper := round2J upper
          bbLower := round2J lower
          bbPosition :=
            if cGt currentPrice upper then "Overbought"
            else if cLt currentPrice lower then "Oversold"
            else "Neutral"
          stSignal := if st.1 then "Bullish" else "Bearish"
          stValue := round2J (if st.1 then st.2.2 else st.2.1)
          support := round2J (listMin (lastN 30 (d.map Bar.low)))
          resistance := round2J (listMax (lastN 30 (d.map Bar.high)))
          currentPrice := currentPrice
          tfDaily := get_trend_signal closes
          tfWeekly := get_trend_signal (weekly.map Bar.close)
          tfMonthly := get_trend_signal (monthly.map Bar.close) }

/-- A 5-bar daily frame: long enough to produce a snapshot, too short for
the 20-bar Bollinger window and the 10-bar ATR window. -/
def daily5 : List Bar :=
  [⟨10, 8, 9⟩, ⟨11, 9, 10⟩, ⟨12, 10, 11⟩, ⟨11, 9, 10⟩, ⟨12, 10, 11⟩]

theorem round2J_eq_nan_iff (o : Option ℚ) : round2J o = JNum.nan ↔ o = none := by
  cases o <;> simp [round2J]

theorem lastStd_isSome (p : ℕ) (xs : List ℚ) : (lastStd p xs).isSome ↔ p ≤ xs.length := by
  unfold lastStd
  split <;> rename_i h <;> simp <;> omega

theorem bindMap_isSome (a b : Option ℚ) (f : ℚ → ℚ → ℚ) :
    (a.bind fun x => b.map (f x)).isSome = (a.isSome && b.isSome) := by
  cases a <;> cases b <;> rfl

theorem stBand_isSome (bars : List Bar) (hne : bars ≠ []) :
    ((calculate_supertrend bars).2.2.isSome ↔ 10 ≤ bars.length)
      ∧ ((calculate_supertrend bars).2.1.isSome ↔ 10 ≤ bars.length) := by
  have hlen : 1 ≤ bars.length := by
    cases bars with
    | nil => exact absurd rfl hne
    | cons x xs => simp
  unfold calculate_supertrend
  rw [show ((stState bars 10 3 (bars.length - 1)).2.2.isSome = true) =
      ((rawLB bars 10 3 (bars.length - 1)).isSome = true) from by rw [finalLB_isSome],
    show ((stState bars 10 3 (bars.length - 1)).2.1.isSome = true) =
      ((rawUB bars 10 3 (bars.length - 1)).isSome = true) from by rw [finalUB_isSome],
    rawLB_isSome, rawUB_isSome]
  constructor <;> constructor <;> intro h <;> omega

/-- C8 (counterexample).  On a non-empty 5-bar daily frame the snapshot is
produced (current price and RSI fields included), but the Bollinger upper
band and the SuperTrend value are `NaN` — not the absent/`null` the claim
requires for a field whose lookback window is unfilled (only RSI is
`NaN`-converted to `None`, technical.py line 105). -/
theorem indicators_nan_counterexample :
    (calculate_technical_indicators daily5 [] []).toOption.map Snapshot.bbUpper
        = some JNum.nan
      ∧ (calculate_technical_indicators daily5 [] []).toOption.map Snapshot.stValue
        = some JNum.nan
      ∧ (calculate_technical_indicators daily5 [] []).toOption.map Snapshot.rsi
        = some none
      ∧ (calculate_technical_indicators daily5 [] []).toOption.map Snapshot.currentPrice
        = some 11 := by
  refine ⟨rfl, rfl, rfl, rfl⟩

/-- C8 (amended, proved).  An empty daily frame yields the explicit
"no data" marker (not an exception); a non-empty daily frame always yields a
full snapshot in which the RSI field alone degrades to `null` when
undefined, while the Bollinger bands are `NaN` exactly when fewer than 20
daily bars exist, and the SuperTrend value is `NaN` exactly when fewer than
10 daily bars exist. -/
theorem indicators_degradation (daily weekly monthly : List Bar) :
    (daily = [] →
        calculate_technical_indicators daily weekly monthly =
          Except.error "No historical data found")
      ∧ (daily ≠ [] →
          ∃ s, calculate_technical_indicators daily weekly monthly = Except.ok s
            ∧ s.rsi = reportedRSI (daily.map Bar.close)
            ∧ (s.bbUpper = JNum.nan ↔ daily.length < 20)
            ∧ (s.bbLower = JNum.nan ↔ daily.length < 20)
            ∧ (s.stValue = JNum.nan ↔ daily.length < 10)) := by
  cases daily with
  | nil =>
      refine ⟨fun _ => rfl, fun hne => absurd rfl hne⟩
  | cons b bs =>
      refine ⟨fun h => by simp at h, fun _ => ?_⟩
      refine ⟨_, rfl, rfl, ?_, ?_, ?_⟩
      · dsimp only
        rw [round2J_eq_nan_iff, ← Option.not_isSome_iff_eq_none, bindMap_isSome]
        rw [Bool.and_eq_true]
        rw [show ((lastMean 20 ((b :: bs).map Bar.close)).isSome = true) ↔
            (20 ≤ ((b :: bs).map Bar.close).length) from lastMean_isSome _ _]
        rw [show ((lastStd 20 ((b :: bs).map Bar.close)).isSome = true) ↔
            (20 ≤ ((b :: bs).map Bar.close).length) from lastStd_isSome _ _]
        rw [List.length_map]
        constructor
        · intro h
          by_contra hc
          exact h ⟨by omega, by omega⟩
        · intro h hc
          omega
      · dsimp only
        rw [round2J_eq_nan_iff, ← Option.not_isSome_iff_eq_none, bindMap_isSome]
        rw [Bool.and_eq_true]
        rw [show ((lastMean 20 ((b :: bs).map Bar.close)).isSome = true) ↔
            (20 ≤ ((b :: bs).map Bar.close).length) from lastMean_isSome _ _]
        rw [show ((lastStd 20 ((b :: bs).map Bar.close)).isSome = true) ↔
            (20 ≤ ((b :: bs).map Bar.close).length) from lastStd_isSome _ _]
        rw [List.length_map]
        constructor
        · intro h
          by_contra hc
          exact h ⟨by omega, by omega⟩
        · intro h hc
          omega
      · dsimp only
        rw [round2J_eq_nan_iff, ← Option.not_isSome_iff_eq_none]
        have hb := stBand_isSome (b :: bs) (by simp)
        cases hst : (calculate_supertrend (b :: bs)).1
        · rw [if_neg (by simp : ¬(false = true))]
          rw [hb.2]
          omega
        · rw [if_pos (rfl : (true = true))]
          rw [hb.1]
          omega

/-- C8 witness: the amended statement applied to the empty daily frame. -/
theorem indicators_degradation_witness :
    calculate_technical_indicators [] [] [] = Except.error "No historical data found" :=
  (indicators_degradation [] [] []).1 rfl
